import Mathlib

/-!
Shallow embedding of the `bitget-tv-bot` webhook service
(`src/app/main.py`, `src/app/bitget.py`).

Python dicts produced by `json.loads` are modelled as insertion-ordered
association lists; Python floats are modelled as rationals; wall-clock
times are rationals; network calls (`requests.*`) are modelled by passing
the outcome the transport would deliver as an explicit argument
(`Transport` below), with a Python exception modelled as `Except.error`.
-/

namespace TvBot

/-- JSON-like values, the result type of `json.loads` / `r.json()`. -/
inductive J where
  | null
  | bool (b : Bool)
  | num (q : ℚ)
  | str (s : String)
  | arr (xs : List J)
  | obj (kvs : List (String × J))
deriving Repr

/-- Python `dict.get(k)` on an insertion-ordered association list
(keys produced by `json.loads` are unique, so first match is the value). -/
def jLookup (kvs : List (String × J)) (k : String) : Option J :=
  match kvs with
  | [] => none
  | (k', v) :: rest => if k' = k then some v else jLookup rest k

/-- Python `dict.get(k, d)`. -/
def jGetD (kvs : List (String × J)) (k : String) (d : J) : J :=
  (jLookup kvs k).getD d

/-- Python truthiness of a JSON value. -/
def truthy : J → Bool
  | .null => false
  | .bool b => b
  | .num q => decide (q ≠ 0)
  | .str s => decide (s ≠ "")
  | .arr xs => !xs.isEmpty
  | .obj kvs => !kvs.isEmpty

/-- Python `a or b` on JSON values. -/
def pyOr (a b : J) : J := if truthy a then a else b

/-- ASCII whitespace recognised by Python `str.strip`. -/
def wsChar (c : Char) : Bool := c = ' ' || c = '\t' || c = '\n' || c = '\r'

/-- Python `str.strip()`. -/
def pyStrip (s : String) : String :=
  ⟨((s.data.dropWhile wsChar).reverse.dropWhile wsChar).reverse⟩

/-- Python `str.upper()` (ASCII, sufficient for ticker symbols). -/
def pyUpper (s : String) : String := ⟨s.data.map Char.toUpper⟩

/-- Python `str.lower()` (ASCII, sufficient for signal keys). -/
def pyLower (s : String) : String := ⟨s.data.map Char.toLower⟩

/-- Python `str.endswith(sfx)`. -/
def pyEndsWith (s sfx : String) : Bool :=
  List.isPrefixOf sfx.data.reverse s.data.reverse

/-- Python `str.startswith(pfx)`. -/
def pyStartsWith (s pfx : String) : Bool := List.isPrefixOf pfx.data s.data

/-- Python `s[:-n]` (drop the last `n` characters). -/
def pyDropRight (s : String) (n : Nat) : String :=
  ⟨s.data.take (s.data.length - n)⟩

/-- Split a character list on a separator, Python `str.split(sep)` style:
the result is always non-empty and empty segments are kept. -/
def splitCharList (sep : Char) (cs : List Char) : List (List Char) :=
  cs.foldr
    (fun c acc =>
      if c = sep then [] :: acc
      else
        match acc with
        | g :: gs => (c :: g) :: gs
        | [] => [[c]])
    [[]]

/-- Python `str.split(sep)` for a one-character separator. -/
def pySplit (sep : Char) (s : String) : List String :=
  (splitCharList sep s.data).map (fun cs => (⟨cs⟩ : String))

/-- Value of a digit string. -/
def digitsVal (cs : List Char) : ℚ :=
  ((cs.foldl (fun a c => a * 10 + (c.toNat - 48)) 0 : Nat) : ℚ)

def allDigits (cs : List Char) : Bool := cs.all Char.isDigit

/-- Python `float(s)` on a plain decimal string (sign, digits, optional
fraction; exponents / inf / nan are not used by the exchange payloads this
code consumes and are modelled as failures). `none` models `ValueError`. -/
def pyFloat? (s : String) : Option ℚ :=
  let cs := (pyStrip s).data
  let sgn : ℚ := match cs with
    | '-' :: _ => -1
    | _ => 1
  let ds : List Char := match cs with
    | '-' :: r => r
    | '+' :: r => r
    | r => r
  match splitCharList '.' ds with
  | [ip] =>
      if !ip.isEmpty && allDigits ip then some (sgn * digitsVal ip) else none
  | [ip, fp] =>
      if (!ip.isEmpty || !fp.isEmpty) && allDigits ip && allDigits fp then
        some (sgn * (digitsVal ip + digitsVal fp / (10 : ℚ) ^ fp.length))
      else none
  | _ => none

/-- Python `float(v)` on a JSON value (`none` models the raised error). -/
def pyFloatJ : J → Option ℚ
  | .num q => some q
  | .str s => pyFloat? s
  | .bool b => some (if b then 1 else 0)
  | _ => none

/-- Python `str(v)` on a JSON value, used only to build dedup keys.
Numeric formatting is abbreviated (the dedup claims only need this to be a
deterministic function of the value). -/
def pyStrJ : J → String
  | .str s => s
  | .num q => toString q
  | .bool b => if b then "True" else "False"
  | .null => "None"
  | .arr _ => "<list>"
  | .obj _ => "<dict>"

-- ========= Bot behavior constants (main.py lines 20-26) =========

/-- Source constant `USE_BALANCE_RATIO = 0.70` (renamed for Lean identifier hygiene). -/
def useBalanceRatio : ℚ := 7/10

/-- Source constant `IDEMP_TTL_SEC = 10`. -/
def IDEMP_TTL_SEC : ℚ := 10

/-- Source constant `CONTRACTS_TTL_SEC = 600`. -/
def CONTRACTS_TTL_SEC : ℚ := 600

/-- Source constant `ALLOW_SPOT_FALLBACK = False`. -/
def ALLOW_SPOT_FALLBACK : Bool := false

-- ========= Deduplicator (main.py lines 180-188) =========

/-- The `_seen` dict: dedup key -> first-seen wall-clock time,
in insertion order. -/
abbrev Seen := List (String × ℚ)

/-- Function `is_dup(key, now_t)`: evict entries older than `now_t - TTL`, then
report (and do not refresh) a present key, or record a fresh key.
Returns the flag together with the updated `_seen`. -/
def is_dup (key : String) (now_t : ℚ) (seen : Seen) : Bool × Seen :=
  let cutoff := now_t - IDEMP_TTL_SEC
  let seen := seen.filter (fun kt => decide (cutoff ≤ kt.2))
  match seen.lookup key with
  | some _ => (true, seen)
  | none => (false, seen ++ [(key, now_t)])

-- ========= Sizing (main.py lines 190-191, 255-293) =========

/-- Function `round_down(x, step)`. -/
def round_down (x step : ℚ) : ℚ :=
  if 0 < step then ⌊x / step⌋ * step else x

/-- The step used by `place_buy`:
`step_raw = cinfo.get("sizeStep") or cinfo.get("minTradeNum") or "0.001"`,
then `float(step_raw)` with `0.001` on a parse failure. -/
def stepOf (cinfo : List (String × J)) : ℚ :=
  let step_raw :=
    pyOr (jGetD cinfo "sizeStep" .null)
      (pyOr (jGetD cinfo "minTradeNum" .null) (.str "0.001"))
  (pyFloatJ step_raw).getD (1/1000)

/-- Outcome of `place_buy`. `orderPlaced qty px` records that the
order-placement POST was issued with size `qty`; every other constructor
returns before any placement request. -/
inductive BuyResult where
  | noPrice
  | noBalance
  | qtyReject (avail use lev px step : ℚ)
  | orderPlaced (qty px : ℚ)
deriving DecidableEq, Repr

/-- Function `place_buy(symbol)` with its three Gateway reads supplied as values:
`px = get_last_price(symbol)`, `avail = get_account_available()`,
`cinfo = get_contract(symbol)`; `lev` is the `LEVERAGE` env constant. -/
def place_buy (px avail lev : ℚ) (cinfo : List (String × J)) : BuyResult :=
  if px ≤ 0 then .noPrice
  else if avail ≤ 0 then .noBalance
  else
    let step := stepOf cinfo
    let use := avail * useBalanceRatio
    let notional := use * max 1 lev
    let qty := round_down (notional / px) step
    if qty ≤ 0 then .qtyReject avail use lev px step
    else .orderPlaced qty px

-- ========= Request signers (main.py 52-56, bitget.py 17-24) =========

/-- Function `sign_v2(ts, method, path, qs, body)` from `main.py`, with the
`base64(hmac-sha256(secret, .))` primitive supplied as `hmacB64`. -/
def sign_v2 (hmacB64 : String → String → String)
    (secret ts method path qs body : String) : String :=
  let query_part := if qs = "" then "" else "?" ++ qs
  let prehash := ts ++ pyUpper method ++ path ++ query_part ++ body
  hmacB64 secret prehash

/-- Method `BitgetClient._sign(ts, method, path, query, body)` from `bitget.py`,
over the same `hmacB64` primitive. -/
def BitgetClient_sign (hmacB64 : String → String → String)
    (secret ts method path query body : String) : String :=
  let msg := ts ++ pyUpper method ++ path
  let msg := if query = "" then msg else msg ++ ("?" ++ query)
  let msg := if body = "" then msg else msg ++ body
  hmacB64 secret msg

-- ========= HTTP transport model (main.py lines 58-75) =========

/-- A Python exception: `net` models a raised `requests` network error
(timeout, connection failure), `ty` models `AttributeError`/`TypeError`
from operating on an unexpectedly-shaped value. -/
inductive PyErr where
  | net
  | ty
deriving DecidableEq, Repr

/-- What `req(...)` delivers to a caller: either a raised network error, or
the `(status_code, parsed body)` pair. (`req` itself catches only the
`r.json()` failure, not transport errors — see main.py lines 71-75.) -/
abbrev Transport := Except PyErr (Nat × J)

/-- Python attribute-style `j.get(k)`: raises unless `j` is a dict. -/
def jGetAttr (j : J) (k : String) : Except PyErr (Option J) :=
  match j with
  | .obj kvs => .ok (jLookup kvs k)
  | _ => .error .ty

-- ========= Gateway reads (main.py lines 194-231) =========

/-- Function `get_account_available()` over the outcome of its single `req` call. -/
def get_account_available (t : Transport) : Except PyErr ℚ :=
  match t with
  | .error e => .error e
  | .ok (c, j) =>
    if c ≠ 200 then .ok 0
    else
      match jGetAttr j "data" with
      | .error e => .error e
      | .ok data0 =>
        let data : Option J :=
          match data0 with
          | some (.arr (x :: _)) => some x
          | other => other
        match data with
        | some (.obj kvs) =>
            .ok ((pyFloatJ (pyOr (jGetD kvs "available" (.num 0)) (.num 0))).getD 0)
        | _ => .ok 0

/-- Function `get_last_price(symbol)` over the outcome of its single `req` call. -/
def get_last_price (t : Transport) : Except PyErr ℚ :=
  match t with
  | .error e => .error e
  | .ok (c, j) =>
    if c = 200 then
      match jGetAttr j "data" with
      | .error e => .error e
      | .ok (some (.obj kvs)) =>
          .ok ((pyFloatJ (pyOr (jGetD kvs "last" (.num 0)) (.num 0))).getD 0)
      | .ok _ => .ok 0
    else .ok 0

/-- The loop body of `get_contract`: first contract dict whose `"symbol"`
equals the requested one (Python `==` between a JSON value and a string is
only true for an equal string). A non-dict element raises. -/
def findContract (symbol : String) : List J → Except PyErr (List (String × J))
  | [] => .ok []
  | it :: rest =>
    match it with
    | .obj kvs =>
      match jLookup kvs "symbol" with
      | some (.str s) =>
          if s = symbol then .ok kvs else findContract symbol rest
      | _ => findContract symbol rest
    | _ => .error .ty

/-- Function `get_contract(symbol)` over the outcome of its single `req` call.
`{}` on a miss is the empty association list. Iterating a non-list
`data` raises in Python and is modelled as `.error .ty`. -/
def get_contract (symbol : String) (t : Transport) : Except PyErr (List (String × J)) :=
  match t with
  | .error e => .error e
  | .ok (c, j) =>
    if c = 200 then
      match jGetAttr j "data" with
      | .error e => .error e
      | .ok none => .ok []
      | .ok (some (.arr xs)) => findContract symbol xs
      | .ok (some _) => .error .ty
    else .ok []

/-- Function `get_positions()` over the outcome of its single `req` call:
`j.get("data") or []` (the value is returned untyped). -/
def get_positions (t : Transport) : Except PyErr J :=
  match t with
  | .error e => .error e
  | .ok (c, j) =>
    if c ≠ 200 then .ok (.arr [])
    else
      match jGetAttr j "data" with
      | .error e => .error e
      | .ok data0 => .ok (pyOr (data0.getD .null) (.arr []))

-- ========= Payload normalizer (main.py lines 158-178) =========

/-- Python dict insertion: replace in place if the key exists, else append. -/
def dictInsert (kvs : List (String × J)) (k : String) (v : J) : List (String × J) :=
  match kvs with
  | [] => [(k, v)]
  | (k', v') :: rest =>
      if k' = k then (k, v) :: rest else (k', v') :: dictInsert rest k v

/-- Function `norm_keys(d)`: the dict comprehension lowercasing every key
(values untouched; JSON keys are always strings). -/
def norm_keys (kvs : List (String × J)) : List (String × J) :=
  kvs.foldl (fun acc kv => dictInsert acc (pyLower kv.1) kv.2) []

/-- Python `isinstance(x, dict)` projection. -/
def asObj : J → Option (List (String × J))
  | .obj kvs => some kvs
  | _ => none

/-- How the whole parse can fail (an exception escaping
`parse_tv_payload`): a line that is not JSON (`json.loads` raises), or a
line whose JSON value is not an object (`norm_keys` raises). -/
inductive ParseFail where
  | badLine
  | lineNotObj
deriving DecidableEq, Repr

/-- The newline-fallback loop of `parse_tv_payload` (lines 173-178),
over the `json.loads` primitive `loads` (`none` models a raised
`JSONDecodeError`). -/
def parseLines (loads : String → Option J) :
    List String → Except ParseFail (List (List (String × J)))
  | [] => .ok []
  | line :: rest =>
    let s := pyStrip line
    if s = "" then parseLines loads rest
    else
      match loads s with
      | none => .error .badLine
      | some (.obj kvs) => (parseLines loads rest).map (fun items => norm_keys kvs :: items)
      | some _ => .error .lineNotObj

/-- Function `parse_tv_payload(raw)`, over `json.loads` supplied as `loads`.
A `loads` failure on the whole body, or a non-dict top-level value, both
fall through to the newline loop, exactly as the `try/except/pass` does. -/
def parse_tv_payload (loads : String → Option J) (raw : String) :
    Except ParseFail (List (List (String × J))) :=
  let raw := pyStrip raw
  if raw = "" then .ok []
  else
    match loads raw with
    | some (.obj kvs) =>
      match jLookup kvs "batch" with
      | some (.arr xs) => .ok ((xs.filterMap asObj).map norm_keys)
      | _ => .ok [norm_keys kvs]
    | _ => parseLines loads (pySplit '\n' raw)

-- ========= Webhook handler loop (main.py lines 346-388) =========

/-- The per-item result dicts the handler appends to `results`. -/
structure TvResult where
  ok : Bool
  skipped : Option String := none
  reason : Option String := none
deriving DecidableEq, Repr

/-- State threaded through the `for obj in items` loop. `dups` counts the
items suppressed as duplicates and `routed` lists the objects handed to
`route_signal` in order (bookkeeping fields; all exchange traffic of the
handler happens inside `route_signal`). -/
structure TvState where
  accepted : Nat
  skippedCt : Nat
  dups : Nat
  results : List TvResult
  seen : Seen
  routed : List (List (String × J))
deriving Repr

/-- The dedup key `f"{sym}|{act}|{str(obj.get('time',''))}"`. -/
def keyOf (sym act : String) (timev : J) : String :=
  sym ++ "|" ++ act ++ "|" ++ pyStrJ timev

/-- The `for obj in items` loop (lines 358-380), with `route_signal`
supplied as `route` (an exception from routing aborts the loop and is
reported to the outer handler, after the dedup insertion already
happened). -/
def processItems (route : List (String × J) → Except PyErr TvResult) (now_t : ℚ) :
    List (List (String × J)) → TvState → TvState × Option PyErr
  | [], st => (st, none)
  | obj :: rest, st =>
    match jLookup obj "action", jLookup obj "symbol" with
    | some (.str act), some (.str sym) =>
      let key := keyOf sym act (jGetD obj "time" (.str ""))
      match is_dup key now_t st.seen with
      | (true, seen') =>
          processItems route now_t rest
            { st with dups := st.dups + 1,
                      results := st.results ++ [⟨true, some "duplicate", none⟩],
                      seen := seen' }
      | (false, seen') =>
          match route obj with
          | .error e => ({ st with seen := seen' }, some e)
          | .ok res =>
              processItems route now_t rest
                { st with
                  accepted := st.accepted + (if res.ok then 1 else 0),
                  skippedCt := st.skippedCt + (if res.ok then 0 else 1),
                  results := st.results ++ [res],
                  seen := seen',
                  routed := st.routed ++ [obj] }
    | _, _ =>
        processItems route now_t rest
          { st with skippedCt := st.skippedCt + 1,
                    results := st.results ++ [⟨false, none, some "invalid object"⟩] }

/-- One `/tv` invocation's loop starting from the handler's fresh
counters (lines 354-357). -/
def tvRun (route : List (String × J) → Except PyErr TvResult) (now_t : ℚ)
    (objs : List (List (String × J))) (seen0 : Seen) : TvState × Option PyErr :=
  processItems route now_t objs ⟨0, 0, 0, [], seen0, []⟩

/-- The JSON body of the `/tv` response together with its HTTP status.
`none` fields model keys absent from the JSON object. -/
structure TvResponse where
  status : Nat
  ok : Bool
  accepted : Nat
  skippedCt : Option Nat
  items : Nat
  err : Option String
  results : Option (List TvResult)
deriving DecidableEq, Repr

/-- The `tv` endpoint handler: parse, loop, aggregate; any exception is
caught by the outermost `except` and still answered with HTTP 200 and the
`"unhandled"` marker (lines 382-388). Returns the response and the
`_seen` state afterwards. -/
def tv (loads : String → Option J) (route : List (String × J) → Except PyErr TvResult)
    (now_t : ℚ) (seen0 : Seen) (raw : String) : TvResponse × Seen :=
  match parse_tv_payload loads raw with
  | .error _ =>
      (⟨200, true, 0, none, 0, some "unhandled", none⟩, seen0)
  | .ok items =>
    match tvRun route now_t items seen0 with
    | (st, some _) => (⟨200, true, 0, none, 0, some "unhandled", none⟩, st.seen)
    | (st, none) =>
        (⟨200, true, st.accepted, some st.skippedCt, items.length, none, some st.results⟩,
         st.seen)

-- ========= Contracts cache and resolver (main.py lines 38-40, 78-155) =========

/-- The module-level cache: `_contracts_set` (modelled as a list in
observation order; only membership and emptiness matter) and
`_contracts_last_load`. -/
structure Cache where
  contracts : List String
  lastLoad : ℚ
deriving DecidableEq, Repr

/-- The pending outcomes of successive `req` calls, consumed in order. -/
abbrev FetchQueue := List Transport

def popFetch : FetchQueue → Transport × FetchQueue
  | [] => (.error .net, [])
  | f :: rest => (f, rest)

/-- The `fresh` set built by `load_contracts_if_stale` (lines 84-89):
`s = it.get("symbol"); if isinstance(s, str): fresh.add(s.upper())`.
A non-dict element raises before any state is written. -/
def contractsFresh : List J → Except PyErr (List String)
  | [] => .ok []
  | it :: rest =>
    match it with
    | .obj kvs =>
      match jLookup kvs "symbol" with
      | some (.str s) => (contractsFresh rest).map (fun l => pyUpper s :: l)
      | _ => contractsFresh rest
    | _ => .error .ty

/-- The `fresh` set a fetch response yields (lines 85-91):
`if c == 200 and isinstance(j.get("data"), list)` collect the uppercased
symbol strings, else leave `fresh` empty (logging a warning). -/
def freshOfResp (c : Nat) (j : J) : Except PyErr (List String) :=
  if c = 200 then
    match jGetAttr j "data" with
    | .error e => .error e
    | .ok (some (.arr xs)) => contractsFresh xs
    | .ok _ => .ok []
  else .ok []

/-- Lines 92-95: `if fresh:` replace the whole cache and stamp `now`,
otherwise leave both fields untouched. -/
def applyFresh (now : ℚ) (st : Cache) (rest : FetchQueue) :
    Except PyErr (List String) → Except PyErr (Cache × FetchQueue)
  | .error e => .error e
  | .ok fresh => if fresh = [] then .ok (st, rest) else .ok (⟨fresh, now⟩, rest)

/-- Function `load_contracts_if_stale(force)` at wall-clock `now`, consuming at most
one fetch from the queue. -/
def load_contracts_if_stale (force : Bool) (now : ℚ) (st : Cache) (fq : FetchQueue) :
    Except PyErr (Cache × FetchQueue) :=
  if force = false ∧ st.contracts ≠ [] ∧ now - st.lastLoad < CONTRACTS_TTL_SEC then
    .ok (st, fq)
  else
    match popFetch fq with
    | (.error e, _) => .error e
    | (.ok (c, j), rest) => applyFresh now st rest (freshOfResp c j)

/-- Override table `CUSTOM_OVERRIDES` (lines 32-36). -/
def CUSTOM_OVERRIDES : List (String × String) := [("PENDLEUSDT.P", "PENDLEUSDT_UMCBL")]

/-- Lines 123-126: keep the text after the last colon, then strip a
trailing `".P"` (the only perpetual-suffix variant the code handles). -/
def stripVenueAndP (key : String) : String :=
  let sym : String := ⟨(splitCharList ':' key.data).getLastD []⟩
  if pyEndsWith sym ".P" then pyDropRight sym 2 else sym

/-- The base pair `resolve_tv_symbol` derives from a TV symbol
(uppercase, then venue-prefix and `".P"` stripping). -/
def tvBase (s : String) : String := stripVenueAndP (pyUpper s)

/-- The suffix probe loop (lines 128-133), in source order. -/
def firstSuffixHit (contracts : List String) (base : String) : Option String :=
  if (base ++ "_UMCBL") ∈ contracts then some (base ++ "_UMCBL")
  else if (base ++ "_DMCBL") ∈ contracts then some (base ++ "_DMCBL")
  else if (base ++ "_CMCBL") ∈ contracts then some (base ++ "_CMCBL")
  else none

/-- The lookup stage of `resolve_tv_symbol` (lines 117-155), after the
entry-time refresh: override table, the suffix probes on the stripped
base, then the same-prefix fallback. -/
def resolveLookup (st : Cache) (fq : FetchQueue) (key : String) :
    Except PyErr (Option String × Cache × FetchQueue) :=
  match CUSTOM_OVERRIDES.lookup key with
  | some res => .ok (some res, st, fq)
  | none =>
    match firstSuffixHit st.contracts (stripVenueAndP key) with
    | some cand => .ok (some cand, st, fq)
    | none =>
      match st.contracts.filter (fun c => pyStartsWith c (stripVenueAndP key ++ "_")) with
      | m :: _ => .ok (some m, st, fq)
      | [] => .ok (none, st, fq)

/-- Function `resolve_tv_symbol(tv_symbol)`: the non-forced refresh at entry, then
the lookup stage. The spot fallback (lines 142-151) is dead code because
`ALLOW_SPOT_FALLBACK` is `False`. Returns the resolved symbol (or
`none`), the cache afterwards, and the unconsumed fetches. -/
def resolve_tv_symbol (st : Cache) (now : ℚ) (fq : FetchQueue) (tv_symbol : String) :
    Except PyErr (Option String × Cache × FetchQueue) :=
  match load_contracts_if_stale false now st fq with
  | .error e => .error e
  | .ok (st1, fq1) => resolveLookup st1 fq1 (pyUpper tv_symbol)

-- ========= Concrete fixtures used by witnesses and counterexamples =========

/-- A routing oracle that accepts every signal. -/
def routeOkTrue : List (String × J) → Except PyErr TvResult := fun _ => .ok ⟨true, none, none⟩

/-- A concrete normalized signal object. -/
def objBtc : List (String × J) :=
  [("action", .str "open"), ("symbol", .str "BTCUSDT"), ("time", .str "1")]

/-- A `json.loads` that fails on every input. -/
def loadsNone : String → Option J := fun _ => none

/-- A `json.loads` defined on the single body `"A"`, which is a batch
object with one signal dict (with an uppercase key) and one non-dict
element. -/
def loadsBatch : String → Option J := fun s =>
  if s = "A" then some (.obj [("batch", .arr [.obj [("K", .str "v")], .num 3])]) else none

/-- A failed contracts fetch (HTTP 500). -/
def fetchFail : Transport := .ok (500, .obj [])

/-- A successful contracts fetch delivering the AAVE perpetual. -/
def fetchAave : Transport :=
  .ok (200, .obj [("data", .arr [.obj [("symbol", .str "AAVEUSDT_UMCBL")]])])

-- ========= Helper lemmas =========

theorem round_down_le (x step : ℚ) : round_down x step ≤ x := by
  unfold round_down
  by_cases h : 0 < step
  · rw [if_pos h]
    calc (⌊x / step⌋ : ℚ) * step ≤ (x / step) * step :=
          mul_le_mul_of_nonneg_right (Int.floor_le _) (le_of_lt h)
      _ = x := div_mul_cancel₀ x (ne_of_gt h)
  · rw [if_neg h]

theorem lookup_filter_none {l : Seen} {k : String} {p : String × ℚ → Bool}
    (h : l.lookup k = none) : (l.filter p).lookup k = none := by
  induction l with
  | nil => rfl
  | cons hd tl ih =>
    obtain ⟨k', v⟩ := hd
    by_cases hk : (k == k') = true
    · simp [List.lookup, hk] at h
    · simp only [List.lookup, hk] at h
      by_cases hp : p (k', v) = true <;>
        simp [List.filter, hp, List.lookup, hk, ih h]

theorem lookup_append_single {l : Seen} {k : String} (t : ℚ)
    (h : l.lookup k = none) : (l ++ [(k, t)]).lookup k = some t := by
  induction l with
  | nil => simp [List.lookup]
  | cons hd tl ih =>
    obtain ⟨k', v⟩ := hd
    by_cases hk : (k == k') = true
    · simp [List.lookup, hk] at h
    · simp only [List.lookup, hk] at h
      simp [List.lookup, hk, ih h]

-- ========= Claim theorems =========

/-- Claim C9: the signature pre-image is
`timestamp ++ uppercased method ++ path ++ ("?" ++ query when non-empty) ++ body`,
fed to `base64(HMAC-SHA256(secret, .))`, and the two signer
implementations (`sign_v2` in `main.py`, `BitgetClient._sign` in
`bitget.py`) agree on every input. -/
theorem sign_v2_eq_BitgetClient_sign (hmacB64 : String → String → String)
    (secret ts m path q body : String) :
    sign_v2 hmacB64 secret ts m path q body
      = hmacB64 secret (ts ++ pyUpper m ++ path ++ (if q = "" then "" else "?" ++ q) ++ body) ∧
    sign_v2 hmacB64 secret ts m path q body
      = BitgetClient_sign hmacB64 secret ts m path q body := by
  constructor
  · rfl
  · unfold sign_v2 BitgetClient_sign
    by_cases hq : q = "" <;> by_cases hb : body = "" <;>
      simp [hq, hb, String.append_empty, String.append_assoc]

/-- Claim C6 counterexample: the resolver strips only the `".P"` suffix
(line 124 of `main.py`); the variants `".PERP"` and `"-PERP"` named by the
claim are not stripped, so `"AAVEUSDT.PERP"` does not yield the base pair
`"AAVEUSDT"`. -/
theorem tvBase_perp_counterexample :
    tvBase "AAVEUSDT.PERP" = "AAVEUSDT.PERP" ∧
    tvBase "AAVEUSDT-PERP" = "AAVEUSDT-PERP" ∧
    tvBase "AAVEUSDT.PERP" ≠ "AAVEUSDT" :=
  ⟨by decide, by decide, by decide⟩

/-- Claim C6 (amended): the resolver uppercases, strips any venue prefix
(text up to and including the last colon) and a trailing `".P"` —
and only `".P"`: the `".PERP"` and `"-PERP"` forms pass through
unchanged. -/
theorem tvBase_stripping :
    tvBase "BINANCE:AAVEUSDT.P" = "AAVEUSDT" ∧
    tvBase "AAVEUSDT.P" = "AAVEUSDT" ∧
    tvBase "binance:aaveusdt.p" = "AAVEUSDT" ∧
    tvBase "AAVEUSDT.PERP" = "AAVEUSDT.PERP" ∧
    tvBase "AAVEUSDT-PERP" = "AAVEUSDT-PERP" :=
  ⟨by decide, by decide, by decide, by decide, by decide⟩

/-- Claim C4 (amended): every Gateway read returns its zero/empty default
when the exchange answers a non-200 status; but a network failure raised
by the transport propagates out of the read (it is caught only by the
webhook handler's outermost catch-all), contrary to the original claim. -/
theorem gateway_reads_default (e : PyErr) (c : Nat) (j : J) (sym : String)
    (h : c ≠ 200) :
    get_account_available (.error e) = .error e ∧
    get_last_price (.error e) = .error e ∧
    get_contract sym (.error e) = .error e ∧
    get_positions (.error e) = .error e ∧
    get_account_available (.ok (c, j)) = .ok 0 ∧
    get_last_price (.ok (c, j)) = .ok 0 ∧
    get_contract sym (.ok (c, j)) = .ok [] ∧
    get_positions (.ok (c, j)) = .ok (.arr []) := by
  refine ⟨rfl, rfl, rfl, rfl, ?_, ?_, ?_, ?_⟩ <;>
    simp [get_account_available, get_last_price, get_contract, get_positions, h]

theorem gateway_reads_default_witness :
    get_account_available (.ok (500, .null)) = .ok 0 ∧
    get_positions (.ok (500, .null)) = .ok (.arr []) :=
  ⟨(gateway_reads_default .net 500 .null "BTCUSDT_UMCBL" (by decide)).2.2.2.2.1,
   (gateway_reads_default .net 500 .null "BTCUSDT_UMCBL" (by decide)).2.2.2.2.2.2.2⟩

/-- Claim C4 counterexample: a network failure during the balance read is
not converted to the zero default — the exception propagates to the
caller (`req`, lines 58-75, catches only the body-decode error). -/
theorem gateway_read_raises_counterexample :
    get_account_available (.error .net) = .error .net ∧
    (Except.error PyErr.net : Except PyErr ℚ) ≠ .ok 0 :=
  ⟨rfl, by simp⟩

/-- Claim C2 counterexample: with no `sizeStep` reported but
`minTradeNum = "3"`, the code quantizes with step `3` (not the configured
default granularity `0.001` the claim prescribes): at
`avail = 1000, price = 100, leverage = 1` it places quantity `6`, while
the claim's formula with the default step yields `7`. -/
theorem place_buy_step_counterexample :
    place_buy 100 1000 1 [("minTradeNum", J.str "3")] = .orderPlaced 6 100 ∧
    (⌊((1000 : ℚ) * (7/10) * max 1 1 / 100) / (1/1000)⌋ : ℚ) * (1/1000) = 7 ∧
    (6 : ℚ) ≠ 7 :=
  ⟨by with_unfolding_all rfl, by with_unfolding_all rfl, by norm_num⟩

/-- Claim C2 (amended): for `price > 0` and `avail > 0` the order quantity
is `floor((avail * 0.70 * max(1, leverage) / price) / step) * step`, where
`step` is the contract's `sizeStep`, else its `minTradeNum`, else the
default `0.001` (also used when the selected field fails to parse); the
quantized quantity never exceeds the unquantized one, and a
non-positive quantity is rejected with the computed inputs attached and
no placement request. -/
theorem place_buy_sizing (px avail lev : ℚ) (cinfo : List (String × J))
    (hpx : 0 < px) (hav : 0 < avail) :
    (0 < round_down (avail * useBalanceRatio * max 1 lev / px) (stepOf cinfo) →
      place_buy px avail lev cinfo =
        .orderPlaced (round_down (avail * useBalanceRatio * max 1 lev / px) (stepOf cinfo)) px) ∧
    (round_down (avail * useBalanceRatio * max 1 lev / px) (stepOf cinfo) ≤ 0 →
      place_buy px avail lev cinfo =
        .qtyReject avail (avail * useBalanceRatio) lev px (stepOf cinfo)) ∧
    round_down (avail * useBalanceRatio * max 1 lev / px) (stepOf cinfo)
      ≤ avail * useBalanceRatio * max 1 lev / px := by
  have h1 : ¬ px ≤ 0 := not_le.mpr hpx
  have h2 : ¬ avail ≤ 0 := not_le.mpr hav
  refine ⟨?_, ?_, round_down_le _ _⟩
  · intro hq
    simp [place_buy, h1, h2, not_le.mpr hq]
  · intro hq
    simp [place_buy, h1, h2, hq]

theorem place_buy_sizing_witness :
    place_buy 100 1000 1 [("sizeStep", J.str "0.01")] = .orderPlaced 7 100 := by
  have h := (place_buy_sizing 100 1000 1 [("sizeStep", J.str "0.01")]
    (by norm_num) (by norm_num)).1
  have hq : round_down ((1000 : ℚ) * useBalanceRatio * max 1 1 / 100)
      (stepOf [("sizeStep", J.str "0.01")]) = 7 := by with_unfolding_all rfl
  rw [hq] at h
  exact h (by norm_num)

-- ========= Cache refresh / resolver lemmas and claims =========

theorem load_fresh_skip (now : ℚ) (st : Cache) (fq : FetchQueue)
    (h : st.contracts ≠ [] ∧ now - st.lastLoad < CONTRACTS_TTL_SEC) :
    load_contracts_if_stale false now st fq = .ok (st, fq) := by
  unfold load_contracts_if_stale
  rw [if_pos ⟨rfl, h.1, h.2⟩]

theorem applyFresh_cases (now : ℚ) (st : Cache) (rest : FetchQueue)
    (fE : Except PyErr (List String)) (st' : Cache) (fq' : FetchQueue)
    (h : applyFresh now st rest fE = .ok (st', fq')) :
    fq' = rest ∧
      (st' = st ∨ ∃ fresh, fE = .ok fresh ∧ fresh ≠ [] ∧ st' = ⟨fresh, now⟩) := by
  cases fE with
  | error e => exact absurd h (by simp [applyFresh])
  | ok fresh =>
    by_cases hf : fresh = []
    · simp only [applyFresh, if_pos hf, Except.ok.injEq, Prod.mk.injEq] at h
      exact ⟨h.2.symm, Or.inl h.1.symm⟩
    · simp only [applyFresh, if_neg hf, Except.ok.injEq, Prod.mk.injEq] at h
      exact ⟨h.2.symm, Or.inr ⟨fresh, rfl, hf, h.1.symm⟩⟩

theorem freshOfResp_non200 (c : Nat) (j : J) (h : c ≠ 200) :
    freshOfResp c j = .ok [] := by
  simp [freshOfResp, h]

theorem load_queue_consume (force : Bool) (now : ℚ) (st st' : Cache)
    (fq fq' : FetchQueue)
    (h : load_contracts_if_stale force now st fq = .ok (st', fq')) :
    fq' = fq ∨ fq' = fq.tail := by
  unfold load_contracts_if_stale at h
  split at h
  · simp only [Except.ok.injEq, Prod.mk.injEq] at h
    exact Or.inl h.2.symm
  · cases fq with
    | nil => simp [popFetch] at h
    | cons f rest =>
      cases f with
      | error e => simp [popFetch] at h
      | ok cj =>
        obtain ⟨c, j⟩ := cj
        simp only [popFetch] at h
        exact Or.inr (by simpa using (applyFresh_cases _ _ _ _ _ _ h).1)

/-- Claim C8: the Contract Index is replaced wholesale only by a
successful fetch (HTTP 200 with a list payload yielding at least one
symbol), and any failed fetch leaves both the previous index and its load
timestamp entirely intact — so the index contents are exactly what the
most recent state-changing (successful) fetch delivered. -/
theorem contracts_refresh_replace (force : Bool) (now : ℚ) (st st' : Cache)
    (fq fq' : FetchQueue)
    (h : load_contracts_if_stale force now st fq = .ok (st', fq')) :
    (∀ c j rest, fq = .ok (c, j) :: rest → c ≠ 200 → st' = st) ∧
    (st' = st ∨
      ∃ c j rest fresh, fq = .ok (c, j) :: rest ∧ c = 200 ∧
        freshOfResp c j = .ok fresh ∧ fresh ≠ [] ∧ st' = ⟨fresh, now⟩) := by
  unfold load_contracts_if_stale at h
  split at h
  · simp only [Except.ok.injEq, Prod.mk.injEq] at h
    exact ⟨fun _ _ _ _ _ => h.1.symm, Or.inl h.1.symm⟩
  · cases fq with
    | nil => simp [popFetch] at h
    | cons f rest =>
      cases f with
      | error e => simp [popFetch] at h
      | ok cj =>
        obtain ⟨c, j⟩ := cj
        simp only [popFetch] at h
        rcases (applyFresh_cases _ _ _ _ _ _ h).2 with hst | ⟨fresh, hfE, hf, hst⟩
        · exact ⟨fun _ _ _ _ _ => hst, Or.inl hst⟩
        · have hc : c = 200 := by
            by_contra hc
            rw [freshOfResp_non200 c j hc] at hfE
            exact hf (by injection hfE with h1; exact h1.symm)
          constructor
          · intro c' j' rest' heq hne
            injection heq with h1 _
            injection h1 with h2
            injection h2 with hc' _
            exact absurd (hc'.symm.trans hc) hne
          · exact Or.inr ⟨c, j, rest, fresh, rfl, hc, hfE, hf, hst⟩

theorem contracts_refresh_replace_witness :
    (⟨["OLDUSDT_UMCBL"], 0⟩ : Cache) = ⟨["OLDUSDT_UMCBL"], 0⟩ :=
  (contracts_refresh_replace true 0 ⟨["OLDUSDT_UMCBL"], 0⟩ ⟨["OLDUSDT_UMCBL"], 0⟩
      [fetchFail] [] (by with_unfolding_all rfl)).1
    500 (.obj []) [] rfl (by decide)

/-- Claim C7 counterexample: with a stale index (last load 400s beyond the
TTL), a missing base pair, and a first fetch that fails, the resolver
reports the symbol unresolved after consuming only the entry-time refresh
attempt — even though the forced refresh-and-retry described by the claim
would have succeeded with the next fetch (conjuncts 2 and 3). -/
theorem resolve_no_retry_counterexample :
    resolve_tv_symbol ⟨["BTCUSDT_UMCBL"], 0⟩ 1000 [fetchFail, fetchAave] "AAVEUSDT.P"
      = .ok (none, ⟨["BTCUSDT_UMCBL"], 0⟩, [fetchAave]) ∧
    load_contracts_if_stale true 1000 ⟨["BTCUSDT_UMCBL"], 0⟩ [fetchAave]
      = .ok (⟨["AAVEUSDT_UMCBL"], 1000⟩, []) ∧
    firstSuffixHit ["AAVEUSDT_UMCBL"] (tvBase "AAVEUSDT.P") = some "AAVEUSDT_UMCBL" ∧
    ¬ ((1000 : ℚ) - 0 < CONTRACTS_TTL_SEC) :=
  ⟨by with_unfolding_all rfl, by with_unfolding_all rfl, by decide,
   by norm_num [CONTRACTS_TTL_SEC]⟩

theorem resolveLookup_state (st : Cache) (fq : FetchQueue) (key : String)
    (res : Option String) (st' : Cache) (fq' : FetchQueue)
    (h : resolveLookup st fq key = .ok (res, st', fq')) :
    st' = st ∧ fq' = fq := by
  unfold resolveLookup at h
  split at h
  · simp only [Except.ok.injEq, Prod.mk.injEq] at h
    exact ⟨h.2.1.symm, h.2.2.symm⟩
  · split at h
    · simp only [Except.ok.injEq, Prod.mk.injEq] at h
      exact ⟨h.2.1.symm, h.2.2.symm⟩
    · split at h <;>
        · simp only [Except.ok.injEq, Prod.mk.injEq] at h
          exact ⟨h.2.1.symm, h.2.2.symm⟩

/-- Claim C7 (amended): the only index refresh `resolve_tv_symbol`
performs is the conditional, non-forced one at entry (before any lookup);
when the index is fresh at entry nothing is fetched and the cache is
untouched, and in every case at most one fetch is consumed — a lookup
miss triggers no forced refresh and no retry. -/
theorem resolve_refresh_at_entry_only (st : Cache) (now : ℚ) (fq : FetchQueue)
    (s : String) (res : Option String) (st' : Cache) (fq' : FetchQueue)
    (h : resolve_tv_symbol st now fq s = .ok (res, st', fq')) :
    ((st.contracts ≠ [] ∧ now - st.lastLoad < CONTRACTS_TTL_SEC) →
        (st' = st ∧ fq' = fq)) ∧
    (fq' = fq ∨ fq' = fq.tail) := by
  unfold resolve_tv_symbol at h
  cases hl : load_contracts_if_stale false now st fq with
  | error e => rw [hl] at h; exact absurd h (by simp)
  | ok p =>
    obtain ⟨st1, fq1⟩ := p
    rw [hl] at h
    have h2 : resolveLookup st1 fq1 (pyUpper s) = .ok (res, st', fq') := h
    have hout := resolveLookup_state st1 fq1 (pyUpper s) res st' fq' h2
    constructor
    · intro hc
      have := load_fresh_skip now st fq hc
      rw [this] at hl
      simp only [Except.ok.injEq, Prod.mk.injEq] at hl
      exact ⟨hout.1.trans hl.1.symm, hout.2.trans hl.2.symm⟩
    · rcases load_queue_consume false now st st1 fq fq1 hl with h1 | h1
      · exact Or.inl (hout.2.trans h1)
      · exact Or.inr (hout.2.trans h1)

theorem resolve_refresh_at_entry_only_witness :
    ((Cache.mk ["BTCUSDT_UMCBL"] 0).contracts ≠ [] ∧
        (100 : ℚ) - (Cache.mk ["BTCUSDT_UMCBL"] 0).lastLoad < CONTRACTS_TTL_SEC →
      (Cache.mk ["BTCUSDT_UMCBL"] 0 = Cache.mk ["BTCUSDT_UMCBL"] 0 ∧
        [fetchAave] = [fetchAave])) ∧
    ([fetchAave] = [fetchAave] ∨ [fetchAave] = [fetchAave].tail) :=
  resolve_refresh_at_entry_only ⟨["BTCUSDT_UMCBL"], 0⟩ 100 [fetchAave] "AAVEUSDT.P"
    none ⟨["BTCUSDT_UMCBL"], 0⟩ [fetchAave] (by with_unfolding_all rfl)

-- ========= Normalizer lemmas and claim C5 =========

theorem dictInsert_not_mem (kvs : List (String × J)) (k : String) (v : J)
    (h : k ∉ kvs.map Prod.fst) : dictInsert kvs k v = kvs ++ [(k, v)] := by
  induction kvs with
  | nil => rfl
  | cons hd tl ih =>
    obtain ⟨k', v'⟩ := hd
    simp only [List.map_cons, List.mem_cons, not_or] at h
    simp only [dictInsert, if_neg (fun he : k' = k => h.1 he.symm), List.cons_append,
      List.cons.injEq, true_and]
    exact ih h.2

theorem norm_keys_foldl (kvs : List (String × J)) :
    ∀ acc : List (String × J),
      (∀ kv ∈ kvs, pyLower kv.1 ∉ acc.map Prod.fst) →
      (kvs.map fun kv => pyLower kv.1).Nodup →
      kvs.foldl (fun acc kv => dictInsert acc (pyLower kv.1) kv.2) acc
        = acc ++ kvs.map (fun kv => (pyLower kv.1, kv.2)) := by
  induction kvs with
  | nil => intro acc _ _; simp
  | cons hd tl ih =>
    intro acc hdisj hnd
    simp only [List.map_cons, List.nodup_cons] at hnd
    simp only [List.foldl_cons]
    rw [dictInsert_not_mem acc (pyLower hd.1) hd.2 (hdisj hd (List.mem_cons_self hd tl))]
    rw [ih (acc ++ [(pyLower hd.1, hd.2)]) ?_ hnd.2]
    · simp
    · intro kv hkv
      simp only [List.map_append, List.mem_append, not_or]
      refine ⟨hdisj kv (List.mem_cons_of_mem hd hkv), ?_⟩
      simp only [List.map_cons, List.map_nil, List.mem_singleton]
      intro he
      exact hnd.1 (he ▸ List.mem_map_of_mem (fun kv => pyLower kv.1) hkv)

theorem norm_keys_map_of_nodup (kvs : List (String × J))
    (hnd : (kvs.map fun kv => pyLower kv.1).Nodup) :
    norm_keys kvs = kvs.map fun kv => (pyLower kv.1, kv.2) := by
  unfold norm_keys
  rw [norm_keys_foldl kvs [] (by simp) hnd]
  simp

theorem parseLines_fail (loads : String → Option J) :
    ∀ (lines : List String) (line : String),
      line ∈ lines → pyStrip line ≠ "" → loads (pyStrip line) = none →
      ∃ e, parseLines loads lines = .error e := by
  intro lines
  induction lines with
  | nil => intro line hmem; exact absurd hmem (List.not_mem_nil line)
  | cons hd tl ih =>
    intro line hmem hne hld
    by_cases hhd : pyStrip hd = ""
    · rcases List.mem_cons.mp hmem with rfl | hmem'
      · exact absurd hhd hne
      · obtain ⟨e, he⟩ := ih line hmem' hne hld
        exact ⟨e, by simp [parseLines, hhd, he]⟩
    · cases hl : loads (pyStrip hd) with
      | none => exact ⟨.badLine, by simp [parseLines, hhd, hl]⟩
      | some v =>
        rcases List.mem_cons.mp hmem with rfl | hmem'
        · rw [hld] at hl; exact Option.noConfusion hl
        · obtain ⟨e, he⟩ := ih line hmem' hne hld
          match v with
          | .obj kvs => exact ⟨e, by simp [parseLines, hhd, hl, he, Except.map]⟩
          | .null => exact ⟨.lineNotObj, by simp [parseLines, hhd, hl]⟩
          | .bool b => exact ⟨.lineNotObj, by simp [parseLines, hhd, hl]⟩
          | .num q => exact ⟨.lineNotObj, by simp [parseLines, hhd, hl]⟩
          | .str s => exact ⟨.lineNotObj, by simp [parseLines, hhd, hl]⟩
          | .arr xs => exact ⟨.lineNotObj, by simp [parseLines, hhd, hl]⟩

/-- Claim C5: `parse_tv_payload` tries the accepted shapes in priority
order — a dict with a `batch` list (non-dict elements dropped), then a
single dict, then the newline fallback; object keys are lowercased with
values untouched and order preserved (stated for objects whose lowered
keys are distinct, the only case where "every value" survives a Python
dict comprehension); an all-whitespace body parses to the empty
sequence; and in the newline fallback any non-blank line that `json.loads`
rejects fails the whole parse with no partial result. -/
theorem parse_tv_payload_spec (loads : String → Option J) (raw : String) :
    (pyStrip raw = "" → parse_tv_payload loads raw = .ok []) ∧
    (∀ kvs xs, pyStrip raw ≠ "" → loads (pyStrip raw) = some (.obj kvs) →
      jLookup kvs "batch" = some (.arr xs) →
      parse_tv_payload loads raw = .ok ((xs.filterMap asObj).map norm_keys)) ∧
    (∀ kvs, pyStrip raw ≠ "" → loads (pyStrip raw) = some (.obj kvs) →
      (∀ xs, jLookup kvs "batch" ≠ some (.arr xs)) →
      parse_tv_payload loads raw = .ok [norm_keys kvs]) ∧
    (pyStrip raw ≠ "" → (∀ kvs, loads (pyStrip raw) ≠ some (.obj kvs)) →
      parse_tv_payload loads raw = parseLines loads (pySplit '\n' (pyStrip raw))) ∧
    (∀ lines line, line ∈ lines → pyStrip line ≠ "" → loads (pyStrip line) = none →
      ∃ e, parseLines loads lines = .error e) ∧
    (∀ kvs, (kvs.map fun kv => pyLower kv.1).Nodup →
      norm_keys kvs = kvs.map fun kv => (pyLower kv.1, kv.2)) := by
  refine ⟨?_, ?_, ?_, ?_, parseLines_fail loads, fun kvs h => norm_keys_map_of_nodup kvs h⟩
  · intro h
    simp [parse_tv_payload, h]
  · intro kvs xs hne hld hb
    simp [parse_tv_payload, hne, hld, hb]
  · intro kvs hne hld hno
    cases hb : jLookup kvs "batch" with
    | none => simp [parse_tv_payload, hne, hld, hb]
    | some v =>
      match v with
      | .arr xs => exact absurd hb (hno xs)
      | .null => simp [parse_tv_payload, hne, hld, hb]
      | .bool b => simp [parse_tv_payload, hne, hld, hb]
      | .num q => simp [parse_tv_payload, hne, hld, hb]
      | .str s => simp [parse_tv_payload, hne, hld, hb]
      | .obj kvs2 => simp [parse_tv_payload, hne, hld, hb]
  · intro hne hno
    cases hld : loads (pyStrip raw) with
    | none => simp [parse_tv_payload, hne, hld]
    | some v =>
      match v with
      | .obj kvs => exact absurd hld (hno kvs)
      | .null => simp [parse_tv_payload, hne, hld]
      | .bool b => simp [parse_tv_payload, hne, hld]
      | .num q => simp [parse_tv_payload, hne, hld]
      | .str s => simp [parse_tv_payload, hne, hld]
      | .arr xs => simp [parse_tv_payload, hne, hld]

theorem parse_tv_payload_spec_witness :
    parse_tv_payload loadsBatch "A" = .ok [[("k", J.str "v")]] := by
  have h := (parse_tv_payload_spec loadsBatch "A").2.1
    [("batch", .arr [.obj [("K", .str "v")], .num 3])]
    [.obj [("K", .str "v")], .num 3]
    (by decide) (by with_unfolding_all rfl) (by with_unfolding_all rfl)
  exact h.trans (by with_unfolding_all rfl)

-- ========= Webhook loop lemmas and claims C1, C3, C10 =========

theorem filter_singleton_pos {p : String × ℚ → Bool} {a : String × ℚ}
    (h : p a = true) : List.filter p [a] = [a] := by
  simp [List.filter_cons, h]

theorem tvRun_single_fresh (route : List (String × J) → Except PyErr TvResult)
    (t : ℚ) (seen0 : Seen) (obj : List (String × J)) (act sym : String) (res : TvResult)
    (hact : jLookup obj "action" = some (.str act))
    (hsym : jLookup obj "symbol" = some (.str sym))
    (hkey : seen0.lookup (keyOf sym act (jGetD obj "time" (.str ""))) = none)
    (hroute : route obj = .ok res) :
    tvRun route t [obj] seen0 =
      (⟨if res.ok then 1 else 0, if res.ok then 0 else 1, 0, [res],
        seen0.filter (fun kt => decide (t - IDEMP_TTL_SEC ≤ kt.2))
          ++ [(keyOf sym act (jGetD obj "time" (.str "")), t)], [obj]⟩, none) := by
  have hf := lookup_filter_none
    (p := fun kt => decide (t - IDEMP_TTL_SEC ≤ kt.2)) hkey
  obtain ⟨rok, rskip, rreason⟩ := res
  unfold tvRun
  simp only [processItems, hact, hsym, is_dup]
  rw [hf, hroute]
  cases rok <;> rfl

theorem tvRun_single_dup (route : List (String × J) → Except PyErr TvResult)
    (t : ℚ) (seen0 : Seen) (obj : List (String × J)) (act sym : String) (t0 : ℚ)
    (hact : jLookup obj "action" = some (.str act))
    (hsym : jLookup obj "symbol" = some (.str sym))
    (hkey : (seen0.filter (fun kt => decide (t - IDEMP_TTL_SEC ≤ kt.2))).lookup
        (keyOf sym act (jGetD obj "time" (.str ""))) = some t0) :
    tvRun route t [obj] seen0 =
      (⟨0, 0, 1, [⟨true, some "duplicate", none⟩],
        seen0.filter (fun kt => decide (t - IDEMP_TTL_SEC ≤ kt.2)), []⟩, none) := by
  unfold tvRun
  simp only [processItems, hact, hsym, is_dup]
  rw [hkey]
  rfl

/-- Claim C1: a fresh dedup key is recorded at its arrival time and the
signal is routed (one `route_signal` call, hence the exchange calls of
exactly one routing for the pair); resubmitting the same key within the
TTL yields the per-item result `{ok: true, skipped: "duplicate"}`,
no `route_signal` call (so no exchange call), and leaves the recorded
first-seen time unchanged. -/
theorem dedup_pair_single_route (route : List (String × J) → Except PyErr TvResult)
    (t1 t2 : ℚ) (seen0 : Seen) (obj : List (String × J)) (act sym : String) (res : TvResult)
    (hact : jLookup obj "action" = some (.str act))
    (hsym : jLookup obj "symbol" = some (.str sym))
    (hkey : seen0.lookup (keyOf sym act (jGetD obj "time" (.str ""))) = none)
    (hroute : route obj = .ok res)
    (h12 : t1 ≤ t2) (httl : t2 - t1 ≤ IDEMP_TTL_SEC) :
    (tvRun route t1 [obj] seen0).2 = none ∧
    (tvRun route t1 [obj] seen0).1.routed = [obj] ∧
    (tvRun route t1 [obj] seen0).1.results = [res] ∧
    ((tvRun route t1 [obj] seen0).1.seen).lookup
        (keyOf sym act (jGetD obj "time" (.str ""))) = some t1 ∧
    (tvRun route t2 [obj] (tvRun route t1 [obj] seen0).1.seen).2 = none ∧
    (tvRun route t2 [obj] (tvRun route t1 [obj] seen0).1.seen).1.routed = [] ∧
    (tvRun route t2 [obj] (tvRun route t1 [obj] seen0).1.seen).1.results
      = [⟨true, some "duplicate", none⟩] ∧
    (tvRun route t2 [obj] (tvRun route t1 [obj] seen0).1.seen).1.accepted = 0 ∧
    ((tvRun route t2 [obj] (tvRun route t1 [obj] seen0).1.seen).1.seen).lookup
        (keyOf sym act (jGetD obj "time" (.str ""))) = some t1 := by
  have h1 := tvRun_single_fresh route t1 seen0 obj act sym res hact hsym hkey hroute
  have hpa : (fun kt : String × ℚ => decide (t2 - IDEMP_TTL_SEC ≤ kt.2))
      (keyOf sym act (jGetD obj "time" (.str "")), t1) = true := by
    show decide (t2 - IDEMP_TTL_SEC ≤ t1) = true
    exact decide_eq_true (by linarith)
  have hf1 := lookup_filter_none
    (p := fun kt => decide (t1 - IDEMP_TTL_SEC ≤ kt.2)) hkey
  have hlook1 := lookup_append_single t1 hf1
  have hf2 := lookup_filter_none
    (p := fun kt => decide (t2 - IDEMP_TTL_SEC ≤ kt.2)) hf1
  have hlook2 : ((seen0.filter (fun kt => decide (t1 - IDEMP_TTL_SEC ≤ kt.2))
      ++ [(keyOf sym act (jGetD obj "time" (.str "")), t1)]).filter
        (fun kt => decide (t2 - IDEMP_TTL_SEC ≤ kt.2))).lookup
      (keyOf sym act (jGetD obj "time" (.str ""))) = some t1 := by
    rw [List.filter_append, filter_singleton_pos hpa]
    exact lookup_append_single t1 hf2
  have h2 := tvRun_single_dup route t2
    (seen0.filter (fun kt => decide (t1 - IDEMP_TTL_SEC ≤ kt.2))
      ++ [(keyOf sym act (jGetD obj "time" (.str "")), t1)])
    obj act sym t1 hact hsym hlook2
  rw [h1]
  exact ⟨rfl, rfl, rfl, hlook1,
    congrArg Prod.snd h2,
    congrArg (fun p => p.1.routed) h2,
    congrArg (fun p => p.1.results) h2,
    congrArg (fun p => p.1.accepted) h2,
    (congrArg (fun p => List.lookup
      (keyOf sym act (jGetD obj "time" (J.str ""))) p.1.seen) h2).trans hlook2⟩

theorem dedup_pair_single_route_witness :
    (tvRun routeOkTrue 5 [objBtc] (tvRun routeOkTrue 0 [objBtc] []).1.seen).1.results
      = [⟨true, some "duplicate", none⟩] := by
  have h := dedup_pair_single_route routeOkTrue 0 5 [] objBtc "open" "BTCUSDT"
    ⟨true, none, none⟩
    (by with_unfolding_all rfl) (by with_unfolding_all rfl) (by with_unfolding_all rfl)
    (by with_unfolding_all rfl) (by norm_num) (by norm_num [IDEMP_TTL_SEC])
  exact h.2.2.2.2.2.2.1

/-- Claim C3 (amended): `POST /tv` answers HTTP 200 with `ok: true` for
every body, and a body whose parse fails produces
`{ok: true, accepted: 0, err: "unhandled"}` — the handler has no
dedicated `"parse"` marker; the parse exception reaches the outermost
catch-all (lines 386-388). -/
theorem tv_always_200 (loads : String → Option J)
    (route : List (String × J) → Except PyErr TvResult)
    (now_t : ℚ) (seen0 : Seen) (raw : String) :
    (tv loads route now_t seen0 raw).1.status = 200 ∧
    (tv loads route now_t seen0 raw).1.ok = true ∧
    (∀ e, parse_tv_payload loads raw = .error e →
      (tv loads route now_t seen0 raw).1
        = ⟨200, true, 0, none, 0, some "unhandled", none⟩) := by
  refine ⟨?_, ?_, ?_⟩
  · unfold tv
    split
    · rfl
    · split <;> rfl
  · unfold tv
    split
    · rfl
    · split <;> rfl
  · intro e he
    unfold tv
    rw [he]

theorem tv_always_200_witness :
    (tv loadsNone routeOkTrue 0 [] "x").1
      = ⟨200, true, 0, none, 0, some "unhandled", none⟩ :=
  (tv_always_200 loadsNone routeOkTrue 0 [] "x").2.2 .badLine (by with_unfolding_all rfl)

/-- Claim C3 counterexample: on the unparsable body `"x"` the response
carries the marker `err: "unhandled"`, not the `err: "parse"` the claim
requires (no `"parse"` marker exists anywhere in the handler). -/
theorem tv_parse_marker_counterexample :
    (tv loadsNone routeOkTrue 0 [] "x").1.err = some "unhandled" ∧
    (tv loadsNone routeOkTrue 0 [] "x").1.status = 200 ∧
    (tv loadsNone routeOkTrue 0 [] "x").1.err ≠ some "parse" :=
  ⟨by with_unfolding_all rfl, by with_unfolding_all rfl, by
    rw [show (tv loadsNone routeOkTrue 0 [] "x").1.err = some "unhandled"
      from by with_unfolding_all rfl]
    decide⟩

theorem processItems_counts (route : List (String × J) → Except PyErr TvResult)
    (now_t : ℚ) :
    ∀ (items : List (List (String × J))) (st : TvState),
      (∀ obj ∈ items, ∃ r, route obj = .ok r) →
      (processItems route now_t items st).2 = none ∧
      (processItems route now_t items st).1.accepted
          + (processItems route now_t items st).1.skippedCt
          + (processItems route now_t items st).1.dups
        = st.accepted + st.skippedCt + st.dups + items.length := by
  intro items
  induction items with
  | nil => intro st _; simp [processItems]
  | cons obj rest ih =>
    intro st hok
    obtain ⟨r, hr⟩ := hok obj (List.mem_cons_self obj rest)
    have hrest : ∀ o ∈ rest, ∃ r, route o = .ok r :=
      fun o ho => hok o (List.mem_cons_of_mem _ ho)
    cases ha : jLookup obj "action" with
    | none =>
      have h' := ih { st with
          skippedCt := st.skippedCt + 1,
          results := st.results ++ [⟨false, none, some "invalid object"⟩] } hrest
      simp only [processItems, ha] at h' ⊢
      refine ⟨h'.1, ?_⟩
      rw [h'.2]
      simp
      omega
    | some va =>
      match va with
      | .str act =>
        cases hs : jLookup obj "symbol" with
        | none =>
          have h' := ih { st with
              skippedCt := st.skippedCt + 1,
              results := st.results ++ [⟨false, none, some "invalid object"⟩] } hrest
          simp only [processItems, ha, hs] at h' ⊢
          refine ⟨h'.1, ?_⟩
          rw [h'.2]
          simp
          omega
        | some vs =>
          match vs with
          | .str sym =>
            rcases hd : is_dup (keyOf sym act (jGetD obj "time" (.str ""))) now_t st.seen
              with ⟨b, seen'⟩
            cases b with
            | true =>
              have h' := ih { st with
                  dups := st.dups + 1,
                  results := st.results ++ [⟨true, some "duplicate", none⟩],
                  seen := seen' } hrest
              simp only [processItems, ha, hs, hd] at h' ⊢
              refine ⟨h'.1, ?_⟩
              rw [h'.2]
              simp
              omega
            | false =>
              have h' := ih { st with
                  accepted := st.accepted + (if r.ok then 1 else 0),
                  skippedCt := st.skippedCt + (if r.ok then 0 else 1),
                  results := st.results ++ [r],
                  seen := seen',
                  routed := st.routed ++ [obj] } hrest
              simp only [processItems, ha, hs, hd, hr] at h' ⊢
              refine ⟨h'.1, ?_⟩
              rw [h'.2]
              simp
              cases r.ok <;> simp <;> omega
          | .null =>
            have h' := ih { st with
                skippedCt := st.skippedCt + 1,
                results := st.results ++ [⟨false, none, some "invalid object"⟩] } hrest
            simp only [processItems, ha, hs] at h' ⊢
            refine ⟨h'.1, ?_⟩
            rw [h'.2]
            simp
            omega
          | .bool b =>
            have h' := ih { st with
                skippedCt := st.skippedCt + 1,
                results := st.results ++ [⟨false, none, some "invalid object"⟩] } hrest
            simp only [processItems, ha, hs] at h' ⊢
            refine ⟨h'.1, ?_⟩
            rw [h'.2]
            simp
            omega
          | .num q =>
            have h' := ih { st with
                skippedCt := st.skippedCt + 1,
                results := st.results ++ [⟨false, none, some "invalid object"⟩] } hrest
            simp only [processItems, ha, hs] at h' ⊢
            refine ⟨h'.1, ?_⟩
            rw [h'.2]
            simp
            omega
          | .arr xs =>
            have h' := ih { st with
                skippedCt := st.skippedCt + 1,
                results := st.results ++ [⟨false, none, some "invalid object"⟩] } hrest
            simp only [processItems, ha, hs] at h' ⊢
            refine ⟨h'.1, ?_⟩
            rw [h'.2]
            simp
            omega
          | .obj kvs =>
            have h' := ih { st with
                skippedCt := st.skippedCt + 1,
                results := st.results ++ [⟨false, none, some "invalid object"⟩] } hrest
            simp only [processItems, ha, hs] at h' ⊢
            refine ⟨h'.1, ?_⟩
            rw [h'.2]
            simp
            omega
      | .null =>
        have h' := ih { st with
            skippedCt := st.skippedCt + 1,
            results := st.results ++ [⟨false, none, some "invalid object"⟩] } hrest
        simp only [processItems, ha] at h' ⊢
        refine ⟨h'.1, ?_⟩
        rw [h'.2]
        simp
        omega
      | .bool b =>
        have h' := ih { st with
            skippedCt := st.skippedCt + 1,
            results := st.results ++ [⟨false, none, some "invalid object"⟩] } hrest
        simp only [processItems, ha] at h' ⊢
        refine ⟨h'.1, ?_⟩
        rw [h'.2]
        simp
        omega
      | .num q =>
        have h' := ih { st with
            skippedCt := st.skippedCt + 1,
            results := st.results ++ [⟨false, none, some "invalid object"⟩] } hrest
        simp only [processItems, ha] at h' ⊢
        refine ⟨h'.1, ?_⟩
        rw [h'.2]
        simp
        omega
      | .arr xs =>
        have h' := ih { st with
            skippedCt := st.skippedCt + 1,
            results := st.results ++ [⟨false, none, some "invalid object"⟩] } hrest
        simp only [processItems, ha] at h' ⊢
        refine ⟨h'.1, ?_⟩
        rw [h'.2]
        simp
        omega
      | .obj kvs =>
        have h' := ih { st with
            skippedCt := st.skippedCt + 1,
            results := st.results ++ [⟨false, none, some "invalid object"⟩] } hrest
        simp only [processItems, ha] at h' ⊢
        refine ⟨h'.1, ?_⟩
        rw [h'.2]
        simp
        omega

/-- Claim C10: when every routed item returns a result, an item
suppressed as a duplicate increments neither `accepted` nor `skipped`
(only the results array grows), so
`accepted + skipped + duplicates = items`, and a batch with at least one
duplicate satisfies `accepted + skipped < items`. -/
theorem tv_duplicate_counters (route : List (String × J) → Except PyErr TvResult)
    (now_t : ℚ) (items : List (List (String × J))) (seen0 : Seen)
    (hok : ∀ obj ∈ items, ∃ r, route obj = .ok r) :
    (tvRun route now_t items seen0).2 = none ∧
    (tvRun route now_t items seen0).1.accepted
        + (tvRun route now_t items seen0).1.skippedCt
        + (tvRun route now_t items seen0).1.dups
      = items.length ∧
    (1 ≤ (tvRun route now_t items seen0).1.dups →
      (tvRun route now_t items seen0).1.accepted
          + (tvRun route now_t items seen0).1.skippedCt
        < items.length) := by
  have h := processItems_counts route now_t items ⟨0, 0, 0, [], seen0, []⟩ hok
  unfold tvRun
  refine ⟨h.1, by simpa using h.2, ?_⟩
  intro hd
  have h2 := h.2
  simp only at h2
  omega

theorem tv_duplicate_counters_witness :
    (tvRun routeOkTrue 0 [objBtc, objBtc] []).1.accepted
        + (tvRun routeOkTrue 0 [objBtc, objBtc] []).1.skippedCt
      < ([objBtc, objBtc] : List (List (String × J))).length := by
  have h := tv_duplicate_counters routeOkTrue 0 [objBtc, objBtc] []
    (fun obj _ => ⟨⟨true, none, none⟩, rfl⟩)
  exact h.2.2 (of_decide_eq_true (by with_unfolding_all rfl))

end TvBot
